import Mathlib

/-!
Verification development for the `photodiag` spatial-encoder processing engine
(`photodiag/spatial_encoder.py`).

Modelling conventions:
* Machine floats are modelled by `ℚ`; the IEEE value NaN, used by the code to
  mark an undetermined edge position, is modelled by `none` in `Option ℚ`.
* numpy arrays are modelled by lists (`List ℚ` for 1-D, `List (List ℚ)` for
  2-D, rows = shots); the in-place mutation performed by `process`
  (`data -= background`, `data /= background`) is modelled by returning the
  final contents of the caller's array alongside the result.
* Python `None` is modelled by `Option.none`; a configured `events_channel`
  string or `dark_shot_filter` callable (truthy in the Python conditionals)
  is modelled by `Option.some`.
* Exceptions (`Exception`, `ValueError`, `TypeError`) are modelled by
  `Except String`; messages mirror the source ones, with quote characters
  dropped.
* hdf5 files and eco-scan json files are external inputs; they are modelled
  by records holding the parsed content the reader extracts from them.
-/

namespace Photodiag

set_option maxRecDepth 16384

/-- Decidable equality of modelled results, used to check the theorems on
concrete inputs. -/
instance {ε α : Type} [DecidableEq ε] [DecidableEq α] :
    DecidableEq (Except ε α) := fun x y =>
  match x, y with
  | .error a, .error b =>
    if h : a = b then .isTrue (by rw [h])
    else .isFalse (fun hc => h (Except.error.inj hc))
  | .ok a, .ok b =>
    if h : a = b then .isTrue (by rw [h])
    else .isFalse (fun hc => h (Except.ok.inj hc))
  | .error _, .ok _ => .isFalse (fun hc => Except.noConfusion hc)
  | .ok _, .error _ => .isFalse (fun hc => Except.noConfusion hc)

/-- Module-level list of valid background removal methods (source line 12). -/
def background_methods : List String := ["div", "sub"]

/-- Module-level list of valid edge types (source line 13). -/
def edge_types : List String := ["falling", "rising"]

/-- Column-wise mean of a 2-D array, `data.mean(axis=0)` in the source: entry
`j` is the mean over all rows of column `j`.  Rows are assumed to share a
column count (data-model invariant). -/
def colMean (data : List (List ℚ)) : List ℚ :=
  match data with
  | [] => []
  | r :: _ =>
    (List.range r.length).map
      (fun j => (data.map (fun row => row.getD j 0)).sum / (data.length : ℚ))

/-- Boolean-mask row selection, `data[is_dark]` in numpy: keeps the rows whose
mask entry is `true`, in order. -/
def selectRows (data : List (List ℚ)) (mask : List Bool) : List (List ℚ) :=
  ((data.zip mask).filter (fun p => p.2)).map (fun p => p.1)

/-- Boolean-mask selection on a plain list, `xs[mask]` in numpy. -/
def selectMask {α : Type} (xs : List α) (mask : List Bool) : List α :=
  ((xs.zip mask).filter (fun p => p.2)).map (fun p => p.1)

/-- Positions (in order) at which a boolean mask is `true`: converts numpy
boolean-mask indexing into integer-index indexing. -/
def maskPositions (mask : List Bool) : List Nat :=
  ((List.range mask.length).zip mask).filterMap
    (fun p => if p.2 then some p.1 else none)

/-- The `SpatialEncoder` object state: configuration fields set in
`__init__` plus the two mutable calibration fields `_background` and
`pix_per_fs`. -/
structure SpatialEncoder where
  channel : String
  roi : Option Nat × Option Nat
  background_method : String
  step_length : Int
  refinement : Nat
  events_channel : Option String
  dark_shot_event : Nat
  dark_shot_filter : Option (Int → Bool)
  background : Option (List ℚ)
  pix_per_fs : Option ℚ
  edge_type : String

instance : Inhabited SpatialEncoder :=
  ⟨⟨"", (none, none), "div", 50, 1, none, 21, none, none, none, "falling"⟩⟩

/-- The `background_method` property setter: rejects values outside
`background_methods` with a `ValueError` (source lines 63-67). -/
def checkBackgroundMethod (value : String) : Except String String :=
  if value ∈ background_methods then .ok value
  else .error "Unknown background removal method"

/-- The `edge_type` property setter: rejects values outside `edge_types`
with a `ValueError` (source lines 73-77). -/
def checkEdgeType (value : String) : Except String String :=
  if value ∈ edge_types then .ok value
  else .error "Unknown edge type"

/-- The `step_length` property setter: rejects values `< 4` with a
`ValueError` (source lines 83-87). -/
def checkStepLength (value : Int) : Except String Int :=
  if value < 4 then .error "A reasonable step length should be at least 4"
  else .ok value

/-- `SpatialEncoder.__init__` (source lines 17-57): rejects configuring both
dark-shot strategies, then assigns the fields in source order, each validated
property setter running eagerly at construction time.  `_background` and
`pix_per_fs` start as `None`. -/
def SpatialEncoder.init (channel : String) (roi : Option Nat × Option Nat)
    (background_method : String) (step_length : Int)
    (events_channel : Option String) (dark_shot_event : Nat)
    (dark_shot_filter : Option (Int → Bool)) (refinement : Nat)
    (edge_type : String) : Except String SpatialEncoder :=
  if events_channel.isSome && dark_shot_filter.isSome then
    .error "Either events_channel and/or dark_shot_filter should be None"
  else
    match checkBackgroundMethod background_method with
    | .error e => .error e
    | .ok bm =>
      match checkStepLength step_length with
      | .error e => .error e
      | .ok sl =>
        match checkEdgeType edge_type with
        | .error e => .error e
        | .ok et =>
          .ok { channel := channel, roi := roi, background_method := bm,
                step_length := sl, refinement := refinement,
                events_channel := events_channel,
                dark_shot_event := dark_shot_event,
                dark_shot_filter := dark_shot_filter, background := none,
                pix_per_fs := none, edge_type := et }

/-- `SpatialEncoder.calibrate_background(data, is_dark)` (source lines
89-102): with a mask, keeps only the rows flagged dark, raising if the mask
selects none; stores the column-wise mean as the new `_background`,
replacing any previous value. -/
def SpatialEncoder.calibrate_background (enc : SpatialEncoder)
    (data : List (List ℚ)) (is_dark : Option (List Bool)) :
    Except String SpatialEncoder :=
  match is_dark with
  | some mask =>
    if mask.any id then
      .ok { enc with background := some (colMean (selectRows data mask)) }
    else
      .error "None of pulse ids correspond to dark shots"
  | none => .ok { enc with background := some (colMean data) }

/-- Linear interpolation of a sequence at `r` points per original sample
(used for sub-pixel refinement); with `r ≤ 1` the sequence is unchanged. -/
def upsample (r : Nat) (xs : List ℚ) : List ℚ :=
  if r ≤ 1 then xs
  else
    match xs with
    | [] => []
    | _ =>
      (List.range ((xs.length - 1) * r + 1)).map (fun i =>
        let k := i / r
        let t : ℚ := ((i % r : Nat) : ℚ) / (r : ℚ)
        xs.getD k 0 + t * (xs.getD (k + 1) 0 - xs.getD k 0))

/-- Full linear cross-correlation of a template `t` against a sequence `x`:
`out.length = x.length + t.length - 1`, entry `k` pairs template entry `j`
with `x` entry `k + j - (t.length - 1)` (zero outside). -/
def crossCorr (t x : List ℚ) : List ℚ :=
  (List.range (x.length + t.length - 1)).map (fun k =>
    ((List.range t.length).map (fun j =>
      t.getD j 0 *
        (if k + j < t.length - 1 then 0
         else x.getD (k + j - (t.length - 1)) 0))).sum)

/-- Index of the first maximum of a list of rationals, `none` on `[]`. -/
def argmaxQ (xs : List ℚ) : Option Nat :=
  match xs with
  | [] => none
  | x :: rest =>
    let go := rest.foldl
      (fun (acc : ℚ × Nat × Nat) v =>
        let best := acc.1
        let bestIdx := acc.2.1
        let cur := acc.2.2 + 1
        if best < v then (v, cur, cur) else (best, bestIdx, cur))
      (x, 0, 0)
    some go.2.1

/-- Result of the edge-locator routine: one sub-pixel edge position per
input row (`none` models NaN), plus the per-row cross-correlation curves and
the common lag axis. -/
structure FindEdgeOutput where
  edge_pos : List (Option ℚ)
  xcorr : List (List ℚ)
  lags : List ℚ
deriving DecidableEq, Inhabited

/-- Modelled from the spec: the routine `find_edge` lives in
`photodiag.utils`, which is not part of the given sources; this definition
follows spec section 4.3.  A step template of length `step_length` matching
the requested polarity (falling transitions high to low at its midpoint,
rising is the mirror) and every waveform row are upsampled by linear
interpolation at `refinement` points per sample; each row is
cross-correlated with the template (full linear cross-correlation, length
`n_up + L_up - 1`), the lag axis is expressed in original-pixel units
(divided by `refinement`), and the edge position of a row is the lag of the
first maximum of its correlation curve. -/
def find_edge (data : List (List ℚ)) (step_length : Int) (edge_type : String)
    (refinement : Nat) : FindEdgeOutput :=
  let L := step_length.toNat
  let template : List ℚ :=
    (List.range L).map (fun i => if i < L / 2 then (1 : ℚ) else (-1 : ℚ))
  let template : List ℚ :=
    if edge_type == "rising" then template.map (fun v => -v) else template
  let r := max refinement 1
  let tUp := upsample r template
  let corr := data.map (fun row => crossCorr tUp (upsample r row))
  let nLags :=
    match corr with
    | [] => 0
    | c :: _ => c.length
  let lags := (List.range nLags).map (fun k => ((k : ℚ) - (tUp.length - 1 : Nat)) / (r : ℚ))
  let edge_pos := corr.map (fun c => (argmaxQ c).map (fun k => lags.getD k 0))
  ⟨edge_pos, corr, lags⟩

/-- 1-D or 2-D numeric input accepted by `process` (inputs of higher
dimension, which `process` rejects with a shape error, are not
representable in the model and are outside every claim). -/
inductive NDArray where
  | one : List ℚ → NDArray
  | two : List (List ℚ) → NDArray

/-- Background removal (source lines 169-174): `sub` does `data -=
background`, `div` does `data /= background; data -= 1`, both elementwise
on every row. -/
def applyBackground (method : String) (background : List ℚ)
    (data : List (List ℚ)) : List (List ℚ) :=
  if method == "sub" then
    data.map (fun row => List.zipWith (fun a b => a - b) row background)
  else if method == "div" then
    data.map (fun row => List.zipWith (fun a b => a / b - 1) row background)
  else data

/-- Output of `SpatialEncoder.process`: the `find_edge` result plus, in
debug mode, the `raw_input` key (which the code fills with the array after
in-place background removal). -/
structure ProcessOutput where
  edge_pos : List (Option ℚ)
  xcorr : List (List ℚ)
  lags : List ℚ
  raw_input : Option (List (List ℚ))
deriving DecidableEq, Inhabited

/-- `SpatialEncoder.process(data, debug)` (source lines 147-181): requires a
calibrated background, normalizes a 1-D input to a single-row 2-D array,
removes the background in place, and runs `find_edge`.  The second
component of the result is the final contents of the (mutated) data array:
the numpy operators `-=` and `/=` write through to the caller's buffer,
also for a 1-D input via the `np.newaxis` view. -/
def SpatialEncoder.process (enc : SpatialEncoder) (data : NDArray)
    (debug : Bool) : Except String (ProcessOutput × List (List ℚ)) :=
  match enc.background with
  | none => .error "Background calibration is not found"
  | some bg =>
    let d2 : List (List ℚ) :=
      match data with
      | .one v => [v]
      | .two m => m
    let corrected := applyBackground enc.background_method bg d2
    let out := find_edge corrected enc.step_length enc.edge_type enc.refinement
    .ok ({ edge_pos := out.edge_pos, xcorr := out.xcorr, lags := out.lags,
           raw_input := if debug then some corrected else none }, corrected)

/-- Parsed content of one bsread hdf5 recording, as `_read_bsread_file`
extracts it: for the configured data channel, the pulse-id array and the
camera images (shot, y, x, already cast to float); for the (optional)
events channel, its pulse-id array and its per-shot event-flag matrix.
The hdf5 path layout (`/data/{}` versus `/{}`) is pure path formatting and
is not modelled. -/
structure H5File where
  cam_pulse_id : List Int
  cam_images : List (List (List ℚ))
  evt_pulse_id : List Int
  evt_data : List (List ℚ)

instance : Inhabited H5File := ⟨⟨[], [], [], []⟩⟩

/-- Insertion of an integer into a sorted list (ascending). -/
def insertSorted (x : Int) : List Int → List Int
  | [] => [x]
  | y :: ys => if x ≤ y then x :: y :: ys else y :: insertSorted x ys

/-- Insertion sort on integers (ascending). -/
def sortInts (l : List Int) : List Int := l.foldr insertSorted []

/-- `np.intersect1d(a, b, return_indices=True)`: the sorted deduplicated
common values, together with, for each common value, the index of its first
occurrence in `a` and in `b`. -/
def intersect1d (a b : List Int) : List Int × List Nat × List Nat :=
  let common := sortInts ((a.filter (fun v => b.contains v)).dedup)
  (common, common.map (fun v => a.findIdx (fun w => w == v)),
   common.map (fun v => b.findIdx (fun w => w == v)))

/-- numpy slice `slice(a, b)` over rows with non-negative bounds, `None`
meaning the respective end (negative indices are not used by the claims and
are not modelled). -/
def sliceRows {α : Type} (roi : Option Nat × Option Nat) (l : List α) :
    List α :=
  (l.take (roi.2.getD l.length)).drop (roi.1.getD 0)

/-- `SpatialEncoder._read_bsread_file` (source lines 239-301) on parsed file
content.  With an events channel: intersect the pulse ids of the two
channels, drop common pulse ids equal to zero (the code then emits a
warning, not modelled), and read the dark flag of each remaining shot from
column `dark_shot_event` of the events data.  With a dark-shot filter:
select the shots with nonzero pulse id and apply the filter to the pulse-id
array.  Otherwise: select the shots with nonzero pulse id, no dark mask.
This helper covers the selection of the shot indices and of the dark mask;
`read_bsread_file` below assembles the returned tuple. -/
def readIndexDark (enc : SpatialEncoder) (f : H5File) :
    List Nat × Option (List Bool) :=
  let pulse_id := f.cam_pulse_id
  if enc.events_channel.isSome then
    let events_pulse_id := f.evt_pulse_id
    let r := intersect1d pulse_id events_pulse_id
    let pid_zero_ind := r.1.map (fun v => v == 0)
    let index :=
      if pid_zero_ind.any id then selectMask r.2.1 (pid_zero_ind.map not)
      else r.2.1
    let event_index :=
      if pid_zero_ind.any id then selectMask r.2.2 (pid_zero_ind.map not)
      else r.2.2
    let is_dark := event_index.map (fun j =>
      decide ((f.evt_data.getD j []).getD enc.dark_shot_event 0 ≠ 0))
    (index, some is_dark)
  else
    match enc.dark_shot_filter with
    | some flt =>
      let mask := pulse_id.map (fun v => decide (v ≠ 0))
      (maskPositions mask, some (selectMask (pulse_id.map flt) mask))
    | none =>
      let mask := pulse_id.map (fun v => decide (v ≠ 0))
      (maskPositions mask, none)

/-- Tuple `(data, pulse_id, is_dark, images)` returned by
`SpatialEncoder._read_bsread_file` (source lines 290-301): the selected
pulse ids, the selected camera images restricted to the roi rows, and the
waveforms obtained by averaging each image over its y axis
(`images.mean(axis=1)` is the column-wise mean of one image). -/
def read_bsread_file (enc : SpatialEncoder) (f : H5File)
    (return_images : Bool) :
    List (List ℚ) × List Int × Option (List Bool) ×
      Option (List (List (List ℚ))) :=
  let r := readIndexDark enc f
  let index := r.1
  let is_dark := r.2
  let pulse_id := index.map (fun i => f.cam_pulse_id.getD i 0)
  let images := index.map (fun i => sliceRows enc.roi (f.cam_images.getD i []))
  let data := images.map colMean
  (data, pulse_id, is_dark, if return_images then some images else none)

/-- Output of `SpatialEncoder.process_hdf5`: the `process` output extended
with the `pulse_id`, `is_dark` and `images` keys. -/
structure ProcessHdf5Output where
  edge_pos : List (Option ℚ)
  xcorr : List (List ℚ)
  lags : List ℚ
  raw_input : Option (List (List ℚ))
  pulse_id : List Int
  is_dark : Option (List Bool)
  images : Option (List (List (List ℚ)))
deriving DecidableEq, Inhabited

/-- The background decision of `process_hdf5` (source lines 195-199): with
a dark-shot discrimination strategy configured, recalibrate from this
file's data and dark mask; otherwise require an existing background. -/
def SpatialEncoder.resolveBackground (enc : SpatialEncoder)
    (data : List (List ℚ)) (is_dark : Option (List Bool)) :
    Except String SpatialEncoder :=
  if enc.events_channel.isSome || enc.dark_shot_filter.isSome then
    enc.calibrate_background data is_dark
  else
    match enc.background with
    | none => .error "Background calibration is not found"
    | some _ => .ok enc

/-- `SpatialEncoder.process_hdf5(filepath, debug)` (source lines 183-210):
read the file; resolve the background (`resolveBackground`); run `process`;
then overwrite `edge_pos[is_dark]` with NaN when a dark mask is present.
The second component is the encoder state after the call (its
`_background` may have been recalibrated). -/
def SpatialEncoder.process_hdf5 (enc : SpatialEncoder) (f : H5File)
    (debug : Bool) :
    Except String (ProcessHdf5Output × SpatialEncoder) :=
  let r := read_bsread_file enc f debug
  let data := r.1
  let pulse_id := r.2.1
  let is_dark := r.2.2.1
  let images := r.2.2.2
  match enc.resolveBackground data is_dark with
  | .error e => .error e
  | .ok enc' =>
    match enc'.process (.two data) debug with
    | .error e => .error e
    | .ok pr =>
      let out := pr.1
      let edge_pos :=
        match is_dark with
        | some mask =>
          List.zipWith (fun e d => if d then none else e) out.edge_pos mask
        | none => out.edge_pos
      .ok ({ edge_pos := edge_pos, xcorr := out.xcorr, lags := out.lags,
             raw_input := out.raw_input, pulse_id := pulse_id,
             is_dark := is_dark, images := images }, enc')

/-- Parsed content of a json eco scan file: the flattened `scan_readbacks`
values (in seconds) and the `scan_files` entries, each a list of files of
which the bsread file is the first. -/
structure EcoScan where
  scan_readbacks : List ℚ
  scan_files : List (List H5File)

/-- `SpatialEncoder._read_eco_scan` (source lines 303-322): scan positions
converted to femtoseconds (`* 1e15`) and the first file of every
`scan_files` entry. -/
def read_eco_scan (scan : EcoScan) : List ℚ × List H5File :=
  (scan.scan_readbacks.map (fun v => v * 10 ^ 15),
   scan.scan_files.map (fun l => l.headD default))

/-- Error-propagating map over a list: the result of applying `f` to every
element in order, or the first error. -/
def exceptMapM {α β ε : Type} (f : α → Except ε β) :
    List α → Except ε (List β)
  | [] => .ok []
  | x :: xs =>
    match f x with
    | .error e => .error e
    | .ok y =>
      match exceptMapM f xs with
      | .error e => .error e
      | .ok ys => .ok (y :: ys)

/-- Modelled semantics of `multiprocessing.Pool.map` with `nproc` worker
processes, an external collaborator of the core: the function is applied to
every element and the results are returned in input order, independent of
the worker count and of completion order; a raising worker fails the whole
call.  Each worker operates on its own copy of the encoder, so no worker
mutation is visible to the caller. -/
def poolMap {α β ε : Type} (nproc : Nat) (f : α → Except ε β)
    (xs : List α) : Except ε (List β) :=
  let _ := nproc
  exceptMapM f xs

/-- One entry of the `process_eco` result: the per-file `process_hdf5`
output with the `scan_pos_fs` key added. -/
structure EcoStepOutput where
  out : ProcessHdf5Output
  scan_pos_fs : ℚ
deriving DecidableEq, Inhabited

/-- Body of `process_eco` after its background check: read the eco scan,
`pool.map` `process_hdf5` over the bsread files, annotate entry `i` with
`scan_pos_fs[i]`.  Workers receive copies of the encoder, so only the
per-file outputs come back (`Prod.fst`). -/
def SpatialEncoder.processEcoSteps (enc : SpatialEncoder) (scan : EcoScan)
    (nproc : Nat) (debug : Bool) : Except String (List EcoStepOutput) :=
  let r := read_eco_scan scan
  match poolMap nproc
      (fun f => (enc.process_hdf5 f debug).map Prod.fst) r.2 with
  | .error e => .error e
  | .ok output =>
    .ok ((List.range output.length).map (fun i =>
      { out := output.getD i default, scan_pos_fs := r.1.getD i 0 }))

/-- `SpatialEncoder.process_eco(filepath, nproc, debug)` (source lines
212-237): unless a dark-shot strategy is configured, require an existing
background, then run `processEcoSteps`. -/
def SpatialEncoder.process_eco (enc : SpatialEncoder) (scan : EcoScan)
    (nproc : Nat) (debug : Bool) : Except String (List EcoStepOutput) :=
  if enc.events_channel.isSome || enc.dark_shot_filter.isSome then
    enc.processEcoSteps scan nproc debug
  else
    match enc.background with
    | none => .error "Background calibration is not found"
    | some _ => enc.processEcoSteps scan nproc debug

/-- `np.nanmean` over a vector whose entries may be NaN (`none`): the mean
of the non-NaN entries, or NaN when there are none. -/
def nanmean (xs : List (Option ℚ)) : Option ℚ :=
  let vs := xs.filterMap id
  match vs with
  | [] => none
  | _ => some (vs.sum / (vs.length : ℚ))

/-- Modelled semantics of `np.polyfit(x, y, 1)`, the degree-1 least-squares
fit used by `calibrate_time`: raises a `TypeError` on an empty `x` and on
mismatched lengths.  polyfit builds the Vandermonde matrix with columns
`[x, 1]`, divides each column by its Euclidean norm to improve the
condition number, solves with `lstsq`, and divides the coefficients by the
column norms again.  On a full-rank system (at least two distinct
abscissae; over `ℚ`, exactly when `n * sxx - sx ^ 2 ≠ 0`) this returns the
ordinary least-squares slope and intercept, unchanged by the scaling.  On
an exactly rank-deficient system (all abscissae equal some `c`, in
particular a single sample) numpy emits a `RankWarning` and `lstsq`
returns the minimum-norm solution of the scaled system: after unscaling,
`(m / (2 * c), m / 2)` for mean ordinate `m` when `c ≠ 0`; when `c = 0`
the first column norm is zero, the scaling produces NaNs, and `lstsq`
fails with a `LinAlgError` rather than returning a fit. -/
def polyfit1 (x y : List ℚ) : Except String (ℚ × ℚ) :=
  if x.isEmpty then .error "expected non-empty vector for x"
  else if x.length ≠ y.length then
    .error "expected x and y to have same length"
  else
    let n : ℚ := x.length
    let sx := x.sum
    let sy := y.sum
    let sxx := (x.map (fun v => v ^ 2)).sum
    let sxy := ((x.zip y).map (fun p => p.1 * p.2)).sum
    let d := n * sxx - sx ^ 2
    if d ≠ 0 then
      .ok ((n * sxy - sx * sy) / d, (sxx * sy - sx * sxy) / d)
    else
      let c := x.headD 0
      if c = 0 then
        .error "SVD did not converge in Linear Least Squares"
      else
        let m := sy / n
        .ok (m / (2 * c), m / 2)

/-- The two aggregation strategies of `calibrate_time`. -/
inductive CalibMethod where
  | avg_wf
  | avg_edge

/-- The per-step sample gathering of `calibrate_time` (source lines
121-139): one `(scan_pos_fs, edge_pos_pix)` pair per scan step.  `avg_wf`:
edge of the per-step averaged waveform (`data.mean(axis=0)` of a step's
waveform matrix is its column-wise mean, processed as a 1-D input);
`avg_edge`: nanmean of the per-shot edges from `process_eco`. -/
def SpatialEncoder.gatherCalibrationPairs (enc : SpatialEncoder)
    (scan : EcoScan) (method : CalibMethod) (nproc : Nat) :
    Except String (List ℚ × List (Option ℚ)) :=
  match method with
  | .avg_wf =>
    let r := read_eco_scan scan
    match exceptMapM (fun f =>
        let data := (read_bsread_file enc f false).1
        match enc.process (.one (colMean data)) false with
        | .error e => .error e
        | .ok results => .ok (results.1.edge_pos.headD none)) r.2 with
    | .error e => .error e
    | .ok edge_pos_pix => .ok (r.1, edge_pos_pix)
  | .avg_edge =>
    match enc.process_eco scan nproc false with
    | .error e => .error e
    | .ok results =>
      .ok (results.map (fun d => d.scan_pos_fs),
           results.map (fun d => nanmean d.out.edge_pos))

/-- `SpatialEncoder.calibrate_time(filepath, method, nproc)` (source lines
104-145): unless a dark-shot strategy is configured, require an existing
background; gather the per-step samples; fit `np.polyfit(scan_pos_fs,
edge_pos_pix, 1)` and store the slope in `pix_per_fs`.  A NaN edge
aggregate would flow into the float fit as NaN; that path is outside the
rational model and is reported as an error here. -/
def SpatialEncoder.calibrate_time (enc : SpatialEncoder) (scan : EcoScan)
    (method : CalibMethod) (nproc : Nat) :
    Except String ((List ℚ × List (Option ℚ) × (ℚ × ℚ)) × SpatialEncoder) :=
  if enc.events_channel.isNone && enc.dark_shot_filter.isNone &&
      enc.background.isNone then
    .error "Background calibration is not found"
  else
    match enc.gatherCalibrationPairs scan method nproc with
    | .error e => .error e
    | .ok g =>
      if g.2.all (fun o => o.isSome) then
        match polyfit1 g.1 (g.2.filterMap id) with
        | .error e => .error e
        | .ok fit_coeff =>
          .ok ((g.1, g.2, fit_coeff),
               { enc with pix_per_fs := some fit_coeff.1 })
      else
        .error "NaN edge positions reaching the float fit are not modelled"

/-- Sum of squared residuals of the degree-1 fit `t ↦ a * t + b` on the
sample pairs `(x i, y i)`: the quantity an ordinary least-squares fit
minimizes. -/
def lsqError (x y : List ℚ) (a b : ℚ) : ℚ :=
  ((x.zip y).map (fun p => (a * p.1 + b - p.2) ^ 2)).sum

/-! Concrete encoders, files and scans used to instantiate the theorems. -/

/-- A subtractive-mode encoder with an already calibrated background. -/
def encSub : SpatialEncoder :=
  { channel := "cam", roi := (none, none), background_method := "sub",
    step_length := 4, refinement := 1, events_channel := none,
    dark_shot_event := 21, dark_shot_filter := none,
    background := some [1, 1], pix_per_fs := none, edge_type := "falling" }

/-- A subtractive-mode encoder with a pulse-id dark-shot predicate (dark
when the pulse id is 2) and no stored background. -/
def encDark : SpatialEncoder :=
  { channel := "cam", roi := (none, none), background_method := "sub",
    step_length := 4, refinement := 1, events_channel := none,
    dark_shot_event := 21, dark_shot_filter := some (fun p => p == 2),
    background := none, pix_per_fs := none, edge_type := "falling" }

/-- An encoder with no dark-shot strategy and no stored background. -/
def encNoBg : SpatialEncoder :=
  { channel := "cam", roi := (none, none), background_method := "sub",
    step_length := 4, refinement := 1, events_channel := none,
    dark_shot_event := 21, dark_shot_filter := none,
    background := none, pix_per_fs := none, edge_type := "falling" }

/-- A recording with one light shot (pulse id 1) and one dark shot
(pulse id 2), one-row camera images of four pixels. -/
def fDark : H5File :=
  { cam_pulse_id := [1, 2],
    cam_images := [[[1, 1, 2, 2]], [[1, 1, 1, 1]]],
    evt_pulse_id := [], evt_data := [] }

/-- A two-step eco scan over `fDark` with readbacks of 1 fs and 2 fs. -/
def ecoScanW : EcoScan :=
  { scan_readbacks := [1 / 10 ^ 15, 2 / 10 ^ 15],
    scan_files := [[fDark], [fDark]] }

/-- A single-step eco scan over `fDark` with a readback of 2 fs. -/
def ecoScan1 : EcoScan :=
  { scan_readbacks := [2 / 10 ^ 15], scan_files := [[fDark]] }

/-- The `process_hdf5` output of `encDark` on `fDark`. -/
def outDark : ProcessHdf5Output :=
  ((encDark.process_hdf5 fDark false).map Prod.fst).toOption.getD default

/-- The `process` result of `encSub` on the matrix `[[2, 3]]`. -/
def resSub : ProcessOutput × List (List ℚ) :=
  (encSub.process (.two [[2, 3]]) false).toOption.getD default

/-- The `process` result of `encSub` applied a second time, to the array
contents left behind by the first call. -/
def resSub2 : ProcessOutput × List (List ℚ) :=
  (encSub.process (.two resSub.2) false).toOption.getD default

/-- The `process_eco` output of `encDark` on `ecoScanW` with two workers. -/
def ecoOutW : List EcoStepOutput :=
  (encDark.process_eco ecoScanW 2 false).toOption.getD default

/-! Helper lemmas about the list operations used by the model. -/

lemma selectMask_nil_mask {α : Type} (xs : List α) : selectMask xs [] = [] := by
  simp [selectMask]

lemma selectMask_cons {α : Type} (x : α) (xs : List α) (b : Bool)
    (m : List Bool) :
    selectMask (x :: xs) (b :: m) =
      if b then x :: selectMask xs m else selectMask xs m := by
  cases b <;> simp [selectMask, List.zip_cons_cons, List.filter_cons]

lemma selectMask_length_congr {α β : Type} (m : List Bool) :
    ∀ (a : List α) (b : List β), a.length = b.length →
      (selectMask a m).length = (selectMask b m).length := by
  induction m with
  | nil => intro a b _; simp [selectMask_nil_mask]
  | cons hd tl ih =>
    intro a b hab
    cases a with
    | nil => cases b with
      | nil => rfl
      | cons y ys => simp at hab
    | cons x xs =>
      cases b with
      | nil => simp at hab
      | cons y ys =>
        simp only [List.length_cons, Nat.succ.injEq] at hab
        rw [selectMask_cons, selectMask_cons]
        cases hd <;> simp [ih xs ys hab]

lemma filterMap_if_eq_filter_map {α β : Type} (f : α → β)
    (l : List (α × Bool)) :
    l.filterMap (fun p => if p.2 then some (f p.1) else none) =
      (l.filter (fun p => p.2)).map (fun p => f p.1) := by
  induction l with
  | nil => rfl
  | cons hd tl ih =>
    cases h : hd.2 <;> simp [List.filterMap_cons, List.filter_cons, h, ih]

lemma maskPositions_eq_selectMask (m : List Bool) :
    maskPositions m = selectMask (List.range m.length) m := by
  unfold maskPositions selectMask
  exact filterMap_if_eq_filter_map (fun n : Nat => n)
    ((List.range m.length).zip m)

lemma length_selectMask_eq_maskPositions {α : Type} (xs : List α)
    (m : List Bool) (h : xs.length = m.length) :
    (selectMask xs m).length = (maskPositions m).length := by
  rw [maskPositions_eq_selectMask]
  exact selectMask_length_congr m xs (List.range m.length)
    (by simp [h])

lemma getD_map_of_lt {α β : Type} (f : α → β) (l : List α) (i : Nat)
    (d : β) (d' : α) (h : i < l.length) :
    (l.map f).getD i d = f (l.getD i d') := by
  rw [List.getD_eq_getElem (l.map f) d (by simpa using h),
      List.getD_eq_getElem l d' h]
  simp

lemma getD_range_map {β : Type} (g : Nat → β) (n i : Nat) (d : β)
    (h : i < n) :
    ((List.range n).map g).getD i d = g i := by
  rw [getD_map_of_lt g (List.range n) i d 0 (by simpa using h)]
  rw [List.getD_eq_getElem (List.range n) 0 (by simpa using h)]
  simp

lemma getD_zipWith_of_lt {α β γ : Type} (f : α → β → γ) (a : List α)
    (b : List β) (i : Nat) (d : γ) (da : α) (db : β)
    (ha : i < a.length) (hb : i < b.length) :
    (List.zipWith f a b).getD i d = f (a.getD i da) (b.getD i db) := by
  rw [List.getD_eq_getElem (List.zipWith f a b) d
      (by simp [List.length_zipWith]; omega),
      List.getD_eq_getElem a da ha, List.getD_eq_getElem b db hb]
  simp

lemma exceptMapM_ok_length {α β ε : Type} (f : α → Except ε β) :
    ∀ (xs : List α) (ys : List β), exceptMapM f xs = .ok ys →
      ys.length = xs.length := by
  intro xs
  induction xs with
  | nil => intro ys h; simp [exceptMapM] at h; simp [← h]
  | cons x xs ih =>
    intro ys h
    simp only [exceptMapM] at h
    cases hx : f x with
    | error e => rw [hx] at h; simp at h
    | ok y =>
      rw [hx] at h
      cases hxs : exceptMapM f xs with
      | error e => rw [hxs] at h; simp at h
      | ok ys' =>
        rw [hxs] at h
        simp at h
        subst h
        simp [ih ys' hxs]

lemma exceptMapM_ok_getD {α β ε : Type} (f : α → Except ε β) (da : α)
    (db : β) :
    ∀ (xs : List α) (ys : List β), exceptMapM f xs = .ok ys →
      ∀ i, i < xs.length → f (xs.getD i da) = .ok (ys.getD i db) := by
  intro xs
  induction xs with
  | nil => intro ys _ i hi; simp at hi
  | cons x xs ih =>
    intro ys h i hi
    simp only [exceptMapM] at h
    cases hx : f x with
    | error e => rw [hx] at h; simp at h
    | ok y =>
      rw [hx] at h
      cases hxs : exceptMapM f xs with
      | error e => rw [hxs] at h; simp at h
      | ok ys' =>
        rw [hxs] at h
        simp at h
        subst h
        cases i with
        | zero => simpa using hx
        | succ j =>
          simp only [List.getD_cons_succ]
          exact ih ys' hxs j (by simpa using hi)

lemma applyBackground_length (method : String) (bg : List ℚ)
    (data : List (List ℚ)) :
    (applyBackground method bg data).length = data.length := by
  unfold applyBackground
  split <;> try split
  all_goals simp

lemma find_edge_edge_pos_length (data : List (List ℚ)) (sl : Int)
    (et : String) (r : Nat) :
    (find_edge data sl et r).edge_pos.length = data.length := by
  unfold find_edge
  simp

lemma find_edge_xcorr_length (data : List (List ℚ)) (sl : Int)
    (et : String) (r : Nat) :
    (find_edge data sl et r).xcorr.length = data.length := by
  unfold find_edge
  simp

lemma intersect1d_index_lengths (a b : List Int) :
    (intersect1d a b).2.1.length = (intersect1d a b).2.2.length := by
  simp [intersect1d]

lemma readIndexDark_dark_length (enc : SpatialEncoder) (f : H5File)
    (mask : List Bool) (h : (readIndexDark enc f).2 = some mask) :
    mask.length = (readIndexDark enc f).1.length := by
  unfold readIndexDark at h ⊢
  by_cases hev : enc.events_channel.isSome = true
  · rw [if_pos hev] at h ⊢
    simp only [Option.some.injEq] at h
    subst h
    simp only [List.length_map]
    by_cases hz :
        ((((intersect1d f.cam_pulse_id f.evt_pulse_id).1.map
          (fun v => v == 0)).any id) = true)
    · rw [if_pos hz, if_pos hz]
      exact (selectMask_length_congr _ _ _
        (intersect1d_index_lengths _ _)).symm
    · rw [if_neg hz, if_neg hz]
      exact (intersect1d_index_lengths _ _).symm
  · rw [if_neg hev] at h ⊢
    cases hfl : enc.dark_shot_filter with
    | none => rw [hfl] at h; simp at h
    | some flt =>
      rw [hfl] at h
      simp only [Option.some.injEq] at h
      subst h
      exact length_selectMask_eq_maskPositions _ _ (by simp)

lemma read_data_length (enc : SpatialEncoder) (f : H5File) (ri : Bool) :
    (read_bsread_file enc f ri).1.length = (readIndexDark enc f).1.length := by
  simp [read_bsread_file]

lemma read_is_dark_eq (enc : SpatialEncoder) (f : H5File) (ri : Bool) :
    (read_bsread_file enc f ri).2.2.1 = (readIndexDark enc f).2 := by
  simp [read_bsread_file]

lemma read_dark_length (enc : SpatialEncoder) (f : H5File) (ri : Bool)
    (mask : List Bool) (h : (read_bsread_file enc f ri).2.2.1 = some mask) :
    mask.length = (read_bsread_file enc f ri).1.length := by
  rw [read_is_dark_eq] at h
  rw [read_data_length]
  exact readIndexDark_dark_length enc f mask h

lemma process_eq_of_background (enc : SpatialEncoder) (bg : List ℚ)
    (data : List (List ℚ)) (debug : Bool) (h : enc.background = some bg) :
    enc.process (.two data) debug =
      .ok ({ edge_pos := (find_edge (applyBackground enc.background_method
                bg data) enc.step_length enc.edge_type
                enc.refinement).edge_pos,
             xcorr := (find_edge (applyBackground enc.background_method
                bg data) enc.step_length enc.edge_type enc.refinement).xcorr,
             lags := (find_edge (applyBackground enc.background_method
                bg data) enc.step_length enc.edge_type enc.refinement).lags,
             raw_input := if debug then
                some (applyBackground enc.background_method bg data)
              else none },
           applyBackground enc.background_method bg data) := by
  unfold SpatialEncoder.process
  rw [h]

lemma process_err_of_no_background (enc : SpatialEncoder) (data : NDArray)
    (debug : Bool) (h : enc.background = none) :
    enc.process data debug = .error "Background calibration is not found" := by
  unfold SpatialEncoder.process
  rw [h]

lemma process_ok_edge_pos_length (enc : SpatialEncoder)
    (data : List (List ℚ)) (debug : Bool) (out : ProcessOutput)
    (st : List (List ℚ)) (h : enc.process (.two data) debug = .ok (out, st)) :
    out.edge_pos.length = data.length := by
  cases hb : enc.background with
  | none =>
    rw [process_err_of_no_background enc (.two data) debug hb] at h
    exact absurd h (by simp)
  | some bg =>
    rw [process_eq_of_background enc bg data debug hb] at h
    simp only [Except.ok.injEq, Prod.mk.injEq] at h
    obtain ⟨ho, -⟩ := h
    rw [← ho]
    simp [find_edge_edge_pos_length, applyBackground_length]

lemma lt_length_of_getD_true (m : List Bool) (i : Nat)
    (h : m.getD i false = true) : i < m.length := by
  by_contra hc
  push_neg at hc
  rw [List.getD_eq_default _ _ hc] at h
  simp at h

lemma readIndexDark_dark_isSome (enc : SpatialEncoder) (f : H5File)
    (h : (enc.events_channel.isSome || enc.dark_shot_filter.isSome) = true) :
    ∃ mask, (readIndexDark enc f).2 = some mask := by
  unfold readIndexDark
  by_cases hev : enc.events_channel.isSome = true
  · rw [if_pos hev]
    exact ⟨_, rfl⟩
  · rw [if_neg hev]
    rcases hfl : enc.dark_shot_filter with - | flt
    · exfalso
      have hev' : enc.events_channel.isSome = false := by
        cases hx : enc.events_channel.isSome
        · rfl
        · exact absurd hx hev
      rw [hev', hfl] at h
      simp at h
    · exact ⟨_, rfl⟩

lemma calibrate_background_some_any (enc : SpatialEncoder)
    (data : List (List ℚ)) (mask : List Bool) (h : mask.any id = true) :
    enc.calibrate_background data (some mask) =
      .ok { enc with background := some (colMean (selectRows data mask)) } := by
  unfold SpatialEncoder.calibrate_background
  dsimp only
  rw [if_pos h]

lemma calibrate_background_some_none (enc : SpatialEncoder)
    (data : List (List ℚ)) (mask : List Bool) (h : mask.any id = false) :
    enc.calibrate_background data (some mask) =
      .error "None of pulse ids correspond to dark shots" := by
  unfold SpatialEncoder.calibrate_background
  dsimp only
  rw [if_neg (by rw [h]; simp)]

lemma process_hdf5_strategy_ok (enc : SpatialEncoder) (f : H5File)
    (debug : Bool) (out : ProcessHdf5Output) (enc₂ : SpatialEncoder)
    (hstrat : (enc.events_channel.isSome ||
      enc.dark_shot_filter.isSome) = true)
    (h : enc.process_hdf5 f debug = .ok (out, enc₂)) :
    ∃ mask, out.is_dark = some mask ∧
      enc₂ = { enc with background := some (colMean (selectRows
        (read_bsread_file enc f debug).1 mask)) } ∧
      out.xcorr = (find_edge (applyBackground enc.background_method
          (colMean (selectRows (read_bsread_file enc f debug).1 mask))
          (read_bsread_file enc f debug).1)
        enc.step_length enc.edge_type enc.refinement).xcorr := by
  obtain ⟨mask, hmask⟩ := readIndexDark_dark_isSome enc f hstrat
  have hmask' : (read_bsread_file enc f debug).2.2.1 = some mask := by
    rw [read_is_dark_eq]
    exact hmask
  have hres : enc.resolveBackground (read_bsread_file enc f debug).1
      (read_bsread_file enc f debug).2.2.1 =
      enc.calibrate_background (read_bsread_file enc f debug).1
        (some mask) := by
    unfold SpatialEncoder.resolveBackground
    rw [if_pos hstrat, hmask']
  simp only [SpatialEncoder.process_hdf5] at h
  rw [hres] at h
  cases hany : mask.any id with
  | false =>
    rw [calibrate_background_some_none enc _ mask hany] at h
    simp at h
  | true =>
    rw [calibrate_background_some_any enc _ mask hany] at h
    dsimp only at h
    cases hp : SpatialEncoder.process { enc with background := some (colMean
        (selectRows (read_bsread_file enc f debug).1 mask)) }
        (.two (read_bsread_file enc f debug).1) debug with
    | error e => rw [hp] at h; simp at h
    | ok pr =>
      rw [hp] at h
      dsimp only at h
      simp only [Except.ok.injEq, Prod.mk.injEq] at h
      obtain ⟨hout, henc2⟩ := h
      rw [process_eq_of_background _ (colMean (selectRows
        (read_bsread_file enc f debug).1 mask)) _ debug rfl] at hp
      simp only [Except.ok.injEq] at hp
      refine ⟨mask, ?_, henc2.symm, ?_⟩
      · rw [← hout]
        exact hmask'
      · rw [← hout, ← hp]

lemma processEcoSteps_ok (enc : SpatialEncoder) (scan : EcoScan)
    (nproc : Nat) (debug : Bool) (out : List EcoStepOutput)
    (h : enc.processEcoSteps scan nproc debug = .ok out) :
    out.length = (read_eco_scan scan).2.length ∧
    ∀ i, i < out.length →
      ((enc.process_hdf5 ((read_eco_scan scan).2.getD i default)
          debug).map Prod.fst = .ok (out.getD i default).out ∧
       (out.getD i default).scan_pos_fs =
         (read_eco_scan scan).1.getD i 0) := by
  simp only [SpatialEncoder.processEcoSteps] at h
  cases hp : poolMap nproc
      (fun f => (enc.process_hdf5 f debug).map Prod.fst)
      (read_eco_scan scan).2 with
  | error e => rw [hp] at h; simp at h
  | ok output =>
    rw [hp] at h
    dsimp only at h
    simp only [Except.ok.injEq] at h
    have hlen : output.length = (read_eco_scan scan).2.length :=
      exceptMapM_ok_length _ _ _ hp
    subst h
    refine ⟨by simp [hlen], fun i hi => ?_⟩
    have hi' : i < output.length := by simpa using hi
    rw [getD_range_map _ _ i default hi']
    constructor
    · exact exceptMapM_ok_getD _ default default _ _ hp i (by omega)
    · rfl

lemma sum_sq_nonneg (x : List ℚ) : 0 ≤ (x.map (fun v => v ^ 2)).sum := by
  induction x with
  | nil => simp
  | cons a l ih =>
    simp only [List.map_cons, List.sum_cons]
    nlinarith [sq_nonneg a]

lemma sq_sum_le_len_mul_sum_sq (x : List ℚ) :
    x.sum ^ 2 ≤ (x.length : ℚ) * (x.map (fun v => v ^ 2)).sum := by
  induction x with
  | nil => simp
  | cons a l ih =>
    simp only [List.sum_cons, List.map_cons, List.length_cons]
    push_cast
    have hq : 0 ≤ (l.map (fun v => v ^ 2)).sum := sum_sq_nonneg l
    by_cases hl : l = []
    · subst hl
      simp
    · have hn1 : 1 ≤ (l.length : ℚ) := by
        have := List.length_pos.mpr hl
        exact_mod_cast this
      nlinarith [sq_nonneg ((l.length : ℚ) * a - l.sum), ih, hq, hn1]

lemma lsq_expand (a b : ℚ) (l : List (ℚ × ℚ)) :
    (l.map (fun p => (a * p.1 + b - p.2) ^ 2)).sum =
      a ^ 2 * (l.map (fun p => p.1 ^ 2)).sum + (l.length : ℚ) * b ^ 2 +
      (l.map (fun p => p.2 ^ 2)).sum +
      2 * a * b * (l.map (fun p => p.1)).sum -
      2 * a * (l.map (fun p => p.1 * p.2)).sum -
      2 * b * (l.map (fun p => p.2)).sum := by
  induction l with
  | nil => simp
  | cons p l ih =>
    simp only [List.map_cons, List.sum_cons, List.length_cons]
    push_cast
    linear_combination ih

lemma zip_map_fst_sum (x y : List ℚ) (h : x.length = y.length) :
    ((x.zip y).map (fun p => p.1)).sum = x.sum := by
  rw [show (fun p : ℚ × ℚ => p.1) = Prod.fst from rfl,
      List.map_fst_zip x y h.le]

lemma zip_map_snd_sum (x y : List ℚ) (h : x.length = y.length) :
    ((x.zip y).map (fun p => p.2)).sum = y.sum := by
  rw [show (fun p : ℚ × ℚ => p.2) = Prod.snd from rfl,
      List.map_snd_zip x y h.ge]

lemma zip_map_fst_sq_sum (x y : List ℚ) (h : x.length = y.length) :
    ((x.zip y).map (fun p => p.1 ^ 2)).sum =
      (x.map (fun v => v ^ 2)).sum := by
  rw [show (fun p : ℚ × ℚ => p.1 ^ 2) =
      ((fun v => v ^ 2) ∘ Prod.fst) from rfl, ← List.map_map,
      List.map_fst_zip x y h.le]

lemma zip_length_eq (x y : List ℚ) (h : x.length = y.length) :
    (x.zip y).length = x.length := by
  rw [List.length_zip, h, min_self]

lemma polyfit1_full_rank (x y : List ℚ) (hlen : x.length = y.length)
    (hd : (x.length : ℚ) * (x.map (fun v => v ^ 2)).sum - x.sum ^ 2 ≠ 0) :
    polyfit1 x y = .ok
      (((x.length : ℚ) * ((x.zip y).map (fun p => p.1 * p.2)).sum -
          x.sum * y.sum) /
        ((x.length : ℚ) * (x.map (fun v => v ^ 2)).sum - x.sum ^ 2),
       ((x.map (fun v => v ^ 2)).sum * y.sum -
          x.sum * ((x.zip y).map (fun p => p.1 * p.2)).sum) /
        ((x.length : ℚ) * (x.map (fun v => v ^ 2)).sum - x.sum ^ 2)) := by
  have hne : x ≠ [] := by
    rintro rfl
    simp at hd
  have hemp : x.isEmpty = false := by
    cases x
    · exact absurd rfl hne
    · rfl
  unfold polyfit1
  rw [if_neg (by rw [hemp]; simp), if_neg (not_not_intro hlen)]
  dsimp only
  rw [if_pos hd]

lemma ols_optimal (x y : List ℚ) (hlen : x.length = y.length)
    (hd : (x.length : ℚ) * (x.map (fun v => v ^ 2)).sum - x.sum ^ 2 ≠ 0)
    (a' b' : ℚ) :
    lsqError x y
      (((x.length : ℚ) * ((x.zip y).map (fun p => p.1 * p.2)).sum -
          x.sum * y.sum) /
        ((x.length : ℚ) * (x.map (fun v => v ^ 2)).sum - x.sum ^ 2))
      (((x.map (fun v => v ^ 2)).sum * y.sum -
          x.sum * ((x.zip y).map (fun p => p.1 * p.2)).sum) /
        ((x.length : ℚ) * (x.map (fun v => v ^ 2)).sum - x.sum ^ 2)) ≤
      lsqError x y a' b' := by
  have hd0 : 0 ≤ (x.length : ℚ) * (x.map (fun v => v ^ 2)).sum -
      x.sum ^ 2 := by
    have := sq_sum_le_len_mul_sum_sq x
    linarith
  have hdpos : 0 < (x.length : ℚ) * (x.map (fun v => v ^ 2)).sum -
      x.sum ^ 2 := lt_of_le_of_ne hd0 (Ne.symm hd)
  have hsxx0 : 0 ≤ (x.map (fun v => v ^ 2)).sum := sum_sq_nonneg x
  set n := (x.length : ℚ) with hnd
  set sx := x.sum with hsxd
  set sy := y.sum with hsyd
  set sxx := (x.map (fun v => v ^ 2)).sum with hsxxd
  set sxy := ((x.zip y).map (fun p => p.1 * p.2)).sum with hsxyd
  have hn0 : 0 < n := by nlinarith [sq_nonneg sx]
  have expand : ∀ a b, lsqError x y a b =
      a ^ 2 * sxx + n * b ^ 2 +
        ((x.zip y).map (fun p => p.2 ^ 2)).sum +
        2 * a * b * sx - 2 * a * sxy - 2 * b * sy := by
    intro a b
    rw [lsqError, lsq_expand]
    rw [zip_map_fst_sq_sum x y hlen, zip_map_fst_sum x y hlen,
        zip_map_snd_sum x y hlen, zip_length_eq x y hlen]
  set a₀ := (n * sxy - sx * sy) / (n * sxx - sx ^ 2) with ha0
  set b₀ := (sxx * sy - sx * sxy) / (n * sxx - sx ^ 2) with hb0
  have hne1 : sxx * a₀ + sx * b₀ = sxy := by
    rw [ha0, hb0]
    field_simp
    ring
  have hne2 : sx * a₀ + n * b₀ = sy := by
    rw [ha0, hb0]
    field_simp
    ring
  have k1 : (a' - a₀) * (sxx * a₀ + sx * b₀ - sxy) = 0 := by
    rw [hne1]
    ring
  have k2 : (b' - b₀) * (sx * a₀ + n * b₀ - sy) = 0 := by
    rw [hne2]
    ring
  rw [expand a₀ b₀, expand a' b']
  nlinarith [sq_nonneg (sx * (a' - a₀) + n * (b' - b₀)), hdpos, hn0, k1, k2,
    mul_nonneg (le_of_lt hdpos) (sq_nonneg (a' - a₀))]

lemma calibrate_time_stores_slope (enc : SpatialEncoder) (scan : EcoScan)
    (method : CalibMethod) (nproc : Nat) (slope : ℚ) (pp : Option ℚ)
    (h : (enc.calibrate_time scan method nproc).map
      (fun p => (p.1.2.2.1, p.2.pix_per_fs)) = .ok (slope, pp)) :
    pp = some slope := by
  simp only [SpatialEncoder.calibrate_time] at h
  by_cases h0 : (enc.events_channel.isNone && enc.dark_shot_filter.isNone &&
      enc.background.isNone) = true
  · rw [if_pos h0] at h
    simp [Except.map] at h
  · rw [if_neg h0] at h
    cases hg : enc.gatherCalibrationPairs scan method nproc with
    | error e => rw [hg] at h; simp [Except.map] at h
    | ok g =>
      rw [hg] at h
      dsimp only at h
      by_cases hall : (g.2.all (fun o => o.isSome)) = true
      · rw [if_pos hall] at h
        cases hp : polyfit1 g.1 (g.2.filterMap id) with
        | error e => rw [hp] at h; simp [Except.map] at h
        | ok fc =>
          rw [hp] at h
          simp only [Except.map, Except.ok.injEq, Prod.mk.injEq] at h
          obtain ⟨h1, h2⟩ := h
          rw [← h1, ← h2]
      · rw [if_neg hall] at h
        simp [Except.map] at h

/-! Claim theorems. -/

/-- C7: configuration errors are raised eagerly at configuration time:
constructing an encoder with both an events channel and a dark-shot
predicate, with a background method outside the valid set, with a step
length below 4, or with an edge type outside the valid set fails
immediately with the corresponding error, while a fully valid construction
with step length 4 is accepted (so no invalid configuration survives to
processing time). -/
theorem config_errors_raised_at_init (channel : String)
    (roi : Option Nat × Option Nat) (bm : String) (sl : Int)
    (ec : Option String) (dse : Nat) (dsf : Option (Int → Bool)) (ref : Nat)
    (et : String) :
    (ec.isSome = true → dsf.isSome = true →
      SpatialEncoder.init channel roi bm sl ec dse dsf ref et =
        .error "Either events_channel and/or dark_shot_filter should be None") ∧
    ((ec.isSome && dsf.isSome) = false → bm ∉ background_methods →
      SpatialEncoder.init channel roi bm sl ec dse dsf ref et =
        .error "Unknown background removal method") ∧
    ((ec.isSome && dsf.isSome) = false → bm ∈ background_methods → sl < 4 →
      SpatialEncoder.init channel roi bm sl ec dse dsf ref et =
        .error "A reasonable step length should be at least 4") ∧
    ((ec.isSome && dsf.isSome) = false → bm ∈ background_methods → 4 ≤ sl →
      et ∉ edge_types →
      SpatialEncoder.init channel roi bm sl ec dse dsf ref et =
        .error "Unknown edge type") ∧
    ((ec.isSome && dsf.isSome) = false → bm ∈ background_methods →
      et ∈ edge_types →
      SpatialEncoder.init channel roi bm 4 ec dse dsf ref et =
        .ok { channel := channel, roi := roi, background_method := bm,
              step_length := 4, refinement := ref, events_channel := ec,
              dark_shot_event := dse, dark_shot_filter := dsf,
              background := none, pix_per_fs := none, edge_type := et }) := by
  refine ⟨?_, ?_, ?_, ?_, ?_⟩
  · intro h1 h2
    unfold SpatialEncoder.init
    rw [if_pos (by rw [h1, h2]; rfl)]
  · intro hb hbm
    unfold SpatialEncoder.init checkBackgroundMethod
    rw [if_neg (by rw [hb]; simp), if_neg hbm]
  · intro hb hbm hsl
    unfold SpatialEncoder.init checkBackgroundMethod checkStepLength
    rw [if_neg (by rw [hb]; simp), if_pos hbm, if_pos hsl]
  · intro hb hbm hsl het
    unfold SpatialEncoder.init checkBackgroundMethod checkStepLength
      checkEdgeType
    rw [if_neg (by rw [hb]; simp), if_pos hbm,
        if_neg (not_lt.mpr hsl), if_neg het]
  · intro hb hbm het
    unfold SpatialEncoder.init checkBackgroundMethod checkStepLength
      checkEdgeType
    rw [if_neg (by rw [hb]; simp), if_pos hbm,
        if_neg (by norm_num), if_pos het]

/-- Instantiation of C7: each configuration error triggered on a concrete
construction, and a valid construction with step length 4 accepted. -/
theorem config_errors_raised_at_init_witness :
    (SpatialEncoder.init "ch" (none, none) "div" 50 (some "evt") 21
        (some (fun _ => true)) 1 "falling" =
      .error "Either events_channel and/or dark_shot_filter should be None") ∧
    (SpatialEncoder.init "ch" (none, none) "mean" 50 none 21 none 1
        "falling" = .error "Unknown background removal method") ∧
    (SpatialEncoder.init "ch" (none, none) "div" 3 none 21 none 1
        "falling" = .error "A reasonable step length should be at least 4") ∧
    (SpatialEncoder.init "ch" (none, none) "div" 50 none 21 none 1
        "sideways" = .error "Unknown edge type") ∧
    (SpatialEncoder.init "ch" (none, none) "div" 4 none 21 none 1
        "falling" =
      .ok { channel := "ch", roi := (none, none), background_method := "div",
            step_length := 4, refinement := 1, events_channel := none,
            dark_shot_event := 21, dark_shot_filter := none,
            background := none, pix_per_fs := none,
            edge_type := "falling" }) :=
  ⟨(config_errors_raised_at_init "ch" (none, none) "div" 50 (some "evt") 21
      (some (fun _ => true)) 1 "falling").1 rfl rfl,
   (config_errors_raised_at_init "ch" (none, none) "mean" 50 none 21
      none 1 "falling").2.1 (by decide) (by decide),
   (config_errors_raised_at_init "ch" (none, none) "div" 3 none 21
      none 1 "falling").2.2.1 (by decide) (by decide) (by decide),
   (config_errors_raised_at_init "ch" (none, none) "div" 50 none 21
      none 1 "sideways").2.2.2.1 (by decide) (by decide) (by decide)
      (by decide),
   (config_errors_raised_at_init "ch" (none, none) "div" 50 none 21
      none 1 "falling").2.2.2.2 (by decide) (by decide) (by decide)⟩

/-- C3: `calibrate_background` with a mask flagging at least one row stores
the column-wise mean of exactly the dark-flagged rows as the new Background
Reference, replacing any previous one unconditionally (only the
`background` field changes); with a mask flagging zero rows it raises; with
no mask it stores the column-wise mean of all rows. -/
theorem calibrate_background_stores_dark_mean (enc : SpatialEncoder)
    (data : List (List ℚ)) (mask : List Bool) :
    (mask.any id = true →
      enc.calibrate_background data (some mask) =
        .ok { enc with
              background := some (colMean (selectRows data mask)) }) ∧
    (mask.any id = false →
      enc.calibrate_background data (some mask) =
        .error "None of pulse ids correspond to dark shots") ∧
    enc.calibrate_background data none =
      .ok { enc with background := some (colMean data) } := by
  refine ⟨fun h => ?_, fun h => ?_, rfl⟩
  · simp [SpatialEncoder.calibrate_background, h]
  · simp [SpatialEncoder.calibrate_background, h]

/-- Instantiation of C3 on concrete data: a mask selecting the first row
stores that row as the reference, an all-false mask raises. -/
theorem calibrate_background_stores_dark_mean_witness :
    (encNoBg.calibrate_background [[1, 2], [3, 4]] (some [true, false]) =
      .ok { encNoBg with
            background :=
              some (colMean (selectRows [[1, 2], [3, 4]] [true, false])) }) ∧
    (encNoBg.calibrate_background [[1, 2], [3, 4]] (some [false, false]) =
      .error "None of pulse ids correspond to dark shots") :=
  ⟨(calibrate_background_stores_dark_mean encNoBg [[1, 2], [3, 4]]
      [true, false]).1 rfl,
   (calibrate_background_stores_dark_mean encNoBg [[1, 2], [3, 4]]
      [false, false]).2.1 rfl⟩

/-- C8: with a Background Reference present, `process` on a 1-D waveform
returns exactly the `process` result of the same values as a single-row
2-D matrix. -/
theorem process_one_dim_eq_single_row (enc : SpatialEncoder) (v : List ℚ)
    (debug : Bool) (_h : enc.background.isSome = true) :
    enc.process (.one v) debug = enc.process (.two [v]) debug := by
  unfold SpatialEncoder.process
  rfl

/-- Instantiation of C8 at a concrete calibrated encoder and waveform. -/
theorem process_one_dim_eq_single_row_witness :
    encSub.background.isSome = true ∧
    encSub.process (.one [2, 3]) false =
      encSub.process (.two [[2, 3]]) false :=
  ⟨rfl, process_one_dim_eq_single_row encSub [2, 3] false rfl⟩

/-- C5: background removal inside `process` applies one elementwise
operator to every row, selected by the configured mode: entry `(i, j)` of
the corrected matrix equals `data[i][j] - reference[j]` in subtractive mode
and `data[i][j] / reference[j] - 1` in divisive mode. -/
theorem process_background_removal_elementwise (enc : SpatialEncoder)
    (bg : List ℚ) (data : List (List ℚ)) (debug : Bool)
    (out : ProcessOutput) (st : List (List ℚ))
    (hbg : enc.background = some bg)
    (h : enc.process (.two data) debug = .ok (out, st)) :
    st.length = data.length ∧
    (enc.background_method = "sub" →
      ∀ i j, i < data.length → j < bg.length →
        j < (data.getD i []).length →
        (st.getD i []).getD j 0 =
          (data.getD i []).getD j 0 - bg.getD j 0) ∧
    (enc.background_method = "div" →
      ∀ i j, i < data.length → j < bg.length →
        j < (data.getD i []).length →
        (st.getD i []).getD j 0 =
          (data.getD i []).getD j 0 / bg.getD j 0 - 1) := by
  rw [process_eq_of_background enc bg data debug hbg] at h
  simp only [Except.ok.injEq, Prod.mk.injEq] at h
  obtain ⟨-, hst⟩ := h
  subst hst
  refine ⟨applyBackground_length _ _ _, fun hm i j hi hjb hjr => ?_,
    fun hm i j hi hjb hjr => ?_⟩
  · unfold applyBackground
    rw [hm]
    rw [if_pos (by decide)]
    rw [getD_map_of_lt _ data i [] [] hi,
        getD_zipWith_of_lt _ _ _ j (0 : ℚ) 0 0 hjr hjb]
  · unfold applyBackground
    rw [hm]
    rw [if_neg (by decide), if_pos (by decide)]
    rw [getD_map_of_lt _ data i [] [] hi,
        getD_zipWith_of_lt _ _ _ j (0 : ℚ) 0 0 hjr hjb]

/-- Instantiation of C5: subtractive removal on a concrete matrix and
reference, checked at entry (0, 0). -/
theorem process_background_removal_elementwise_witness :
    encSub.background = some [1, 1] ∧
    encSub.process (.two [[2, 3]]) false = .ok (resSub.1, resSub.2) ∧
    encSub.background_method = "sub" ∧
    (resSub.2.getD 0 []).getD 0 0 =
      ([[(2 : ℚ), 3]].getD 0 []).getD 0 0 - [(1 : ℚ), 1].getD 0 0 :=
  ⟨rfl, by with_unfolding_all decide, rfl,
   (process_background_removal_elementwise encSub [1, 1] [[2, 3]] false
      resSub.1 resSub.2 rfl (by with_unfolding_all decide)).2.1 rfl 0 0
      (by decide) (by decide) (by decide)⟩

/-- C10: `process` mutates its input in place: after a call on a 2-D
matrix the caller's array holds the background-corrected values; the debug
field `raw_input` therefore also holds the corrected (not raw) data, and a
second call on the same array applies background removal twice. -/
theorem process_mutates_input_in_place (enc : SpatialEncoder) (bg : List ℚ)
    (data : List (List ℚ)) (debug : Bool)
    (hbg : enc.background = some bg) :
    (∀ out st, enc.process (.two data) debug = .ok (out, st) →
      st = applyBackground enc.background_method bg data ∧
      (debug = true →
        out.raw_input =
          some (applyBackground enc.background_method bg data))) ∧
    (∀ o1 st1 o2 st2, enc.process (.two data) false = .ok (o1, st1) →
      enc.process (.two st1) false = .ok (o2, st2) →
      st2 = applyBackground enc.background_method bg
              (applyBackground enc.background_method bg data)) := by
  constructor
  · intro out st h
    rw [process_eq_of_background enc bg data debug hbg] at h
    simp only [Except.ok.injEq, Prod.mk.injEq] at h
    obtain ⟨ho, hst⟩ := h
    refine ⟨hst.symm, fun hd => ?_⟩
    rw [← ho, hd]
    simp
  · intro o1 st1 o2 st2 h1 h2
    rw [process_eq_of_background enc bg data false hbg] at h1
    simp only [Except.ok.injEq, Prod.mk.injEq] at h1
    obtain ⟨-, hst1⟩ := h1
    rw [process_eq_of_background enc bg st1 false hbg] at h2
    simp only [Except.ok.injEq, Prod.mk.injEq] at h2
    obtain ⟨-, hst2⟩ := h2
    rw [← hst2, ← hst1]

/-- Instantiation of C10: the caller's array `[[2, 3]]` is left holding the
corrected values `[[1, 2]]` (not the raw input), and a second call applies
the subtraction again, yielding `[[0, 1]]`. -/
theorem process_mutates_input_in_place_witness :
    (encSub.process (.two [[2, 3]]) false = .ok (resSub.1, resSub.2) ∧
      resSub.2 = applyBackground encSub.background_method [1, 1] [[2, 3]] ∧
      resSub.2 ≠ [[(2 : ℚ), 3]]) ∧
    (encSub.process (.two resSub.2) false = .ok (resSub2.1, resSub2.2) ∧
      resSub2.2 = applyBackground encSub.background_method [1, 1]
        (applyBackground encSub.background_method [1, 1] [[2, 3]])) :=
  ⟨⟨by with_unfolding_all decide,
    ((process_mutates_input_in_place encSub [1, 1] [[2, 3]] false rfl).1
      resSub.1 resSub.2 (by with_unfolding_all decide)).1,
    by with_unfolding_all decide⟩,
   ⟨by with_unfolding_all decide,
    (process_mutates_input_in_place encSub [1, 1] [[2, 3]] false rfl).2
      resSub.1 resSub.2 resSub2.1 resSub2.2 (by with_unfolding_all decide)
      (by with_unfolding_all decide)⟩⟩

/-- C2: in a `process_hdf5` result carrying a dark mask (which is present
whenever a dark-shot discrimination strategy is configured), every shot
flagged dark has its edge position equal to NaN. -/
theorem dark_shots_yield_nan_edge (enc : SpatialEncoder) (f : H5File)
    (debug : Bool) (out : ProcessHdf5Output) (mask : List Bool) (i : Nat)
    (h : (enc.process_hdf5 f debug).map Prod.fst = .ok out)
    (hd : out.is_dark = some mask)
    (hm : mask.getD i false = true) :
    out.edge_pos.getD i (some 0) = none := by
  have hi : i < mask.length := lt_length_of_getD_true mask i hm
  simp only [SpatialEncoder.process_hdf5] at h
  cases hres : enc.resolveBackground (read_bsread_file enc f debug).1
      (read_bsread_file enc f debug).2.2.1 with
  | error e => rw [hres] at h; simp [Except.map] at h
  | ok enc' =>
    rw [hres] at h
    dsimp only at h
    cases hp : enc'.process (.two (read_bsread_file enc f debug).1) debug with
    | error e => rw [hp] at h; simp [Except.map] at h
    | ok pr =>
      rw [hp] at h
      dsimp only at h
      simp only [Except.map, Except.ok.injEq] at h
      rw [← h] at hd ⊢
      simp only at hd ⊢
      rw [hd]
      have hlen1 : pr.1.edge_pos.length =
          (read_bsread_file enc f debug).1.length :=
        process_ok_edge_pos_length enc' _ debug pr.1 pr.2 hp
      have hlen2 : mask.length = (read_bsread_file enc f debug).1.length :=
        read_dark_length enc f debug mask hd
      rw [getD_zipWith_of_lt _ _ _ i (some 0) (some 0) false
        (by omega) hi]
      rw [hm]
      simp

/-- Instantiation of C2: on a concrete recording whose second shot is dark,
the second edge position of the `process_hdf5` output is NaN. -/
theorem dark_shots_yield_nan_edge_witness :
    (encDark.process_hdf5 fDark false).map Prod.fst = .ok outDark ∧
    outDark.is_dark = some [false, true] ∧
    [false, true].getD 1 false = true ∧
    outDark.edge_pos.getD 1 (some 0) = none :=
  ⟨by with_unfolding_all decide, by with_unfolding_all decide, by decide,
   dark_shots_yield_nan_edge encDark fDark false outDark [false, true] 1
     (by with_unfolding_all decide) (by with_unfolding_all decide)
     (by decide)⟩

/-- C6: if a dark-shot discrimination strategy is configured,
`process_hdf5` recalibrates the Background Reference from this file's own
dark shots before edge detection (the returned encoder carries the mean of
the file's dark rows as its background, and the correlation output is the
one computed from the data corrected with that fresh background); with no
strategy and no stored background it raises the missing-calibration
error. -/
theorem process_hdf5_background_policy (enc : SpatialEncoder) (f : H5File)
    (debug : Bool) :
    ((enc.events_channel.isSome || enc.dark_shot_filter.isSome) = true →
      ∀ out enc₂, enc.process_hdf5 f debug = .ok (out, enc₂) →
        ∃ mask, out.is_dark = some mask ∧
          enc₂.background = some (colMean (selectRows
            (read_bsread_file enc f debug).1 mask)) ∧
          out.xcorr = (find_edge (applyBackground enc.background_method
              (colMean (selectRows (read_bsread_file enc f debug).1 mask))
              (read_bsread_file enc f debug).1)
            enc.step_length enc.edge_type enc.refinement).xcorr) ∧
    (enc.events_channel = none → enc.dark_shot_filter = none →
      enc.background = none →
      enc.process_hdf5 f debug =
        .error "Background calibration is not found") := by
  constructor
  · intro hstrat out enc₂ h
    obtain ⟨mask, h1, h2, h3⟩ :=
      process_hdf5_strategy_ok enc f debug out enc₂ hstrat h
    exact ⟨mask, h1, by rw [h2], h3⟩
  · intro h1 h2 h3
    have hres : enc.resolveBackground (read_bsread_file enc f debug).1
        (read_bsread_file enc f debug).2.2.1 =
        .error "Background calibration is not found" := by
      unfold SpatialEncoder.resolveBackground
      rw [if_neg (by rw [h1, h2]; simp), h3]
    simp only [SpatialEncoder.process_hdf5]
    rw [hres]

/-- Instantiation of C6 (missing-calibration branch): an encoder with no
strategy and no background fails on a concrete file. -/
theorem process_hdf5_background_policy_witness :
    encNoBg.process_hdf5 fDark false =
      .error "Background calibration is not found" :=
  (process_hdf5_background_policy encNoBg fDark false).2 rfl rfl rfl

/-- C4, counterexample: the claim says dark shots are excluded from the
background-averaging, but on a concrete recording whose dark mask is
`[false, true]` the stored reference equals the dark row `[1, 1, 1, 1]`,
while the mean of the rows the claim would average (the non-dark ones) is
`[1, 1, 2, 2]`: the dark shots are exactly the rows that were averaged. -/
theorem dark_shots_included_in_background_cex :
    (encDark.process_hdf5 fDark false).map (fun pr => pr.2.background) =
      .ok (some [1, 1, 1, 1]) ∧
    (read_bsread_file encDark fDark false).2.2.1 = some [false, true] ∧
    colMean (selectRows (read_bsread_file encDark fDark false).1
      ([false, true].map not)) = [1, 1, 2, 2] ∧
    (some [(1 : ℚ), 1, 1, 1] : Option (List ℚ)) ≠ some [1, 1, 2, 2] :=
  ⟨by with_unfolding_all decide, by with_unfolding_all decide,
   by with_unfolding_all decide, by with_unfolding_all decide⟩

/-- C4, amended: during per-file processing with a discrimination strategy
configured, the shots flagged dark are exactly the rows included in the
background-averaging: the recalibrated Background Reference is the
column-wise mean of precisely the dark-flagged rows, and the non-dark rows
are excluded from it. -/
theorem dark_rows_form_background_mean (enc : SpatialEncoder) (f : H5File)
    (debug : Bool) (out : ProcessHdf5Output) (bgres : Option (List ℚ))
    (mask : List Bool)
    (hstrat : (enc.events_channel.isSome ||
      enc.dark_shot_filter.isSome) = true)
    (h1 : (enc.process_hdf5 f debug).map Prod.fst = .ok out)
    (h2 : (enc.process_hdf5 f debug).map (fun pr => pr.2.background) =
      .ok bgres)
    (hd : out.is_dark = some mask) :
    bgres = some (colMean (selectRows
      (read_bsread_file enc f debug).1 mask)) := by
  cases hp : enc.process_hdf5 f debug with
  | error e => rw [hp] at h1; simp [Except.map] at h1
  | ok pr =>
    rw [hp] at h1 h2
    simp only [Except.map, Except.ok.injEq] at h1 h2
    obtain ⟨mask', hm1, hm2, -⟩ :=
      process_hdf5_strategy_ok enc f debug pr.1 pr.2 hstrat (by rw [hp])
    rw [← h1, hm1] at hd
    simp only [Option.some.injEq] at hd
    rw [← hd, ← h2, hm2]

/-- Instantiation of amended C4: on the concrete recording the stored
reference is the mean of the dark-flagged rows. -/
theorem dark_rows_form_background_mean_witness :
    (encDark.events_channel.isSome ||
      encDark.dark_shot_filter.isSome) = true ∧
    (encDark.process_hdf5 fDark false).map Prod.fst = .ok outDark ∧
    (encDark.process_hdf5 fDark false).map (fun pr => pr.2.background) =
      .ok (some [1, 1, 1, 1]) ∧
    outDark.is_dark = some [false, true] ∧
    (some [(1 : ℚ), 1, 1, 1] : Option (List ℚ)) =
      some (colMean (selectRows
        (read_bsread_file encDark fDark false).1 [false, true])) :=
  ⟨rfl, by with_unfolding_all decide, by with_unfolding_all decide,
   by with_unfolding_all decide,
   dark_rows_form_background_mean encDark fDark false outDark
     (some [1, 1, 1, 1]) [false, true] rfl
     (by with_unfolding_all decide) (by with_unfolding_all decide)
     (by with_unfolding_all decide)⟩

/-- C1: the `process_eco` result has one entry per scan-descriptor entry;
entry `i` is the `process_hdf5` output for recording `i`, annotated with
scan position `i` (in femtoseconds); and the result is independent of the
worker count, hence of worker scheduling and completion order (the pool is
modelled by its contract: an order-preserving map). -/
theorem process_eco_preserves_scan_order (enc : SpatialEncoder)
    (scan : EcoScan) (nproc : Nat) (debug : Bool)
    (out : List EcoStepOutput)
    (hlen : scan.scan_readbacks.length = scan.scan_files.length)
    (h : enc.process_eco scan nproc debug = .ok out) :
    out.length = scan.scan_files.length ∧
    (∀ i, i < out.length →
      ((enc.process_hdf5 ((scan.scan_files.getD i []).headD default)
          debug).map Prod.fst = .ok (out.getD i default).out ∧
       (out.getD i default).scan_pos_fs =
         scan.scan_readbacks.getD i 0 * 10 ^ 15)) ∧
    enc.process_eco scan nproc debug = enc.process_eco scan 1 debug := by
  have hsteps : enc.processEcoSteps scan nproc debug = .ok out := by
    unfold SpatialEncoder.process_eco at h
    by_cases hstrat : (enc.events_channel.isSome ||
        enc.dark_shot_filter.isSome) = true
    · rwa [if_pos hstrat] at h
    · rw [if_neg hstrat] at h
      rcases hb : enc.background with - | bg
      · rw [hb] at h; simp at h
      · rwa [hb] at h
  obtain ⟨hl, hpt⟩ := processEcoSteps_ok enc scan nproc debug out hsteps
  have hfiles : (read_eco_scan scan).2.length = scan.scan_files.length := by
    simp [read_eco_scan]
  refine ⟨by rw [hl, hfiles], fun i hi => ?_, rfl⟩
  obtain ⟨ha, hb2⟩ := hpt i hi
  have hif : i < scan.scan_files.length := by omega
  have e1 : (read_eco_scan scan).2.getD i default =
      (scan.scan_files.getD i []).headD default := by
    simp only [read_eco_scan]
    exact getD_map_of_lt _ _ i default [] hif
  have e2 : (read_eco_scan scan).1.getD i 0 =
      scan.scan_readbacks.getD i 0 * 10 ^ 15 := by
    simp only [read_eco_scan]
    exact getD_map_of_lt _ _ i 0 0 (by omega)
  rw [e1] at ha
  rw [e2] at hb2
  exact ⟨ha, hb2⟩

/-- Instantiation of C1 on a concrete two-step scan processed with two
workers: two entries, entry 0 matching the per-file result and scan
position, and the result equal to the single-worker run. -/
theorem process_eco_preserves_scan_order_witness :
    ecoScanW.scan_readbacks.length = ecoScanW.scan_files.length ∧
    encDark.process_eco ecoScanW 2 false = .ok ecoOutW ∧
    ecoOutW.length = ecoScanW.scan_files.length ∧
    ((encDark.process_hdf5 ((ecoScanW.scan_files.getD 0 []).headD default)
        false).map Prod.fst = .ok (ecoOutW.getD 0 default).out ∧
     (ecoOutW.getD 0 default).scan_pos_fs =
       ecoScanW.scan_readbacks.getD 0 0 * 10 ^ 15) ∧
    encDark.process_eco ecoScanW 2 false =
      encDark.process_eco ecoScanW 1 false :=
  ⟨rfl, by with_unfolding_all decide,
   (process_eco_preserves_scan_order encDark ecoScanW 2 false ecoOutW rfl
      (by with_unfolding_all decide)).1,
   (process_eco_preserves_scan_order encDark ecoScanW 2 false ecoOutW rfl
      (by with_unfolding_all decide)).2.1 0
      (by with_unfolding_all decide),
   (process_eco_preserves_scan_order encDark ecoScanW 2 false ecoOutW rfl
      (by with_unfolding_all decide)).2.2⟩

/-- C9, counterexample: the fit is claimed to fail with a fit-input error
whenever fewer than two samples are given, but `np.polyfit` (modelled by
`polyfit1`) only emits a `RankWarning` on a single sample at a nonzero
abscissa and returns the minimum-norm fit of its column-scaled system:
`polyfit1 [2] [2]` succeeds with `(1/2, 1)`, and a whole `calibrate_time`
run over a single-step scan at 2 fs succeeds, storing slope `1/2`. -/
theorem polyfit_single_sample_no_error :
    polyfit1 [2] [2] = .ok (1 / 2, 1) ∧
    ¬2 ≤ [(2 : ℚ)].length ∧
    (encDark.calibrate_time ecoScan1 .avg_edge 1).isOk = true ∧
    (encDark.calibrate_time ecoScan1 .avg_edge 1).map
      (fun p => p.2.pix_per_fs) = .ok (some (1 / 2)) :=
  ⟨by with_unfolding_all decide, by decide,
   by with_unfolding_all decide, by with_unfolding_all decide⟩

/-- C9, amended: the degree-1 fit raises a fit-input error on an empty or
length-mismatched sample set; a rank-deficient sample set (all scan
positions equal, in particular a single sample) does not raise a fit-input
error: at a nonzero common position `c` it produces only a `RankWarning`
and the minimum-norm fit of the column-scaled system, `(m / (2c), m / 2)`
for mean ordinate `m`, while at common position zero the internal
least-squares solver fails on the NaNs produced by the column scaling (a
solver failure, not a fit-input validation error); on a full-rank sample
set (which requires at least two samples) the returned pair is the
ordinary least-squares fit, minimizing the sum of squared residuals; and
`calibrate_time` stores the slope of the fit it computes as the
pixels-per-femtosecond coefficient on the engine. -/
theorem polyfit_time_calibration_fit (x y : List ℚ) (enc : SpatialEncoder)
    (scan : EcoScan) (method : CalibMethod) (nproc : Nat) (fit : ℚ × ℚ)
    (slope : ℚ) (pp : Option ℚ) :
    (x = [] → polyfit1 x y = .error "expected non-empty vector for x") ∧
    (x ≠ [] → x.length ≠ y.length →
      polyfit1 x y = .error "expected x and y to have same length") ∧
    (x ≠ [] → x.length = y.length →
      (x.length : ℚ) * (x.map (fun v => v ^ 2)).sum - x.sum ^ 2 = 0 →
      x.headD 0 ≠ 0 →
      polyfit1 x y = .ok (y.sum / (x.length : ℚ) / (2 * x.headD 0),
        y.sum / (x.length : ℚ) / 2)) ∧
    (x ≠ [] → x.length = y.length →
      (x.length : ℚ) * (x.map (fun v => v ^ 2)).sum - x.sum ^ 2 = 0 →
      x.headD 0 = 0 →
      polyfit1 x y =
        .error "SVD did not converge in Linear Least Squares") ∧
    (x.length = y.length →
      (x.length : ℚ) * (x.map (fun v => v ^ 2)).sum - x.sum ^ 2 ≠ 0 →
      polyfit1 x y = .ok fit →
      ∀ a' b', lsqError x y fit.1 fit.2 ≤ lsqError x y a' b') ∧
    ((enc.calibrate_time scan method nproc).map
        (fun p => (p.1.2.2.1, p.2.pix_per_fs)) = .ok (slope, pp) →
      pp = some slope) := by
  refine ⟨?_, ?_, ?_, ?_, ?_, calibrate_time_stores_slope enc scan method
    nproc slope pp⟩
  · rintro rfl
    rfl
  · intro hne hlen
    have hemp : x.isEmpty = false := by
      cases x
      · exact absurd rfl hne
      · rfl
    unfold polyfit1
    rw [if_neg (by rw [hemp]; simp), if_pos hlen]
  · intro hne hlen hd0 hc
    have hemp : x.isEmpty = false := by
      cases x
      · exact absurd rfl hne
      · rfl
    unfold polyfit1
    rw [if_neg (by rw [hemp]; simp), if_neg (not_not_intro hlen)]
    dsimp only
    rw [if_neg (not_not_intro hd0), if_neg hc]
  · intro hne hlen hd0 hc
    have hemp : x.isEmpty = false := by
      cases x
      · exact absurd rfl hne
      · rfl
    unfold polyfit1
    rw [if_neg (by rw [hemp]; simp), if_neg (not_not_intro hlen)]
    dsimp only
    rw [if_neg (not_not_intro hd0), if_pos hc]
  · intro hlen hd hfit a' b'
    rw [polyfit1_full_rank x y hlen hd] at hfit
    simp only [Except.ok.injEq] at hfit
    rw [← hfit]
    exact ols_optimal x y hlen hd a' b'

/-- Instantiation of amended C9: a concrete full-rank two-sample fit is
returned and beats the zero fit in squared error, a concrete
rank-deficient single sample at abscissa 2 gets the scaled minimum-norm
fit, and a concrete `calibrate_time` run stores the computed slope. -/
theorem polyfit_time_calibration_fit_witness :
    [(0 : ℚ), 1].length = [(1 : ℚ), 3].length ∧
    ([(0 : ℚ), 1].length : ℚ) *
        ([(0 : ℚ), 1].map (fun v => v ^ 2)).sum -
      [(0 : ℚ), 1].sum ^ 2 ≠ 0 ∧
    polyfit1 [0, 1] [1, 3] = .ok (2, 1) ∧
    lsqError [0, 1] [1, 3] (2, 1).1 (2, 1).2 ≤ lsqError [0, 1] [1, 3] 0 0 ∧
    (([(2 : ℚ)].length : ℚ) * ([(2 : ℚ)].map (fun v => v ^ 2)).sum -
        [(2 : ℚ)].sum ^ 2 = 0 ∧
      polyfit1 [2] [2] =
        .ok ([(2 : ℚ)].sum / ([(2 : ℚ)].length : ℚ) /
              (2 * [(2 : ℚ)].headD 0),
            [(2 : ℚ)].sum / ([(2 : ℚ)].length : ℚ) / 2)) ∧
    (encDark.calibrate_time ecoScanW .avg_edge 1).map
      (fun p => (p.1.2.2.1, p.2.pix_per_fs)) = .ok (0, some 0) ∧
    (some (0 : ℚ) : Option ℚ) = some 0 :=
  ⟨rfl, by with_unfolding_all decide, by with_unfolding_all decide,
   (polyfit_time_calibration_fit [0, 1] [1, 3] encDark ecoScanW .avg_edge 1
      (2, 1) 0 (some 0)).2.2.2.2.1 rfl (by with_unfolding_all decide)
      (by with_unfolding_all decide) 0 0,
   ⟨by with_unfolding_all decide,
    (polyfit_time_calibration_fit [2] [2] encDark ecoScanW .avg_edge 1
      (2, 1) 0 (some 0)).2.2.1 (by decide) rfl
      (by with_unfolding_all decide) (by with_unfolding_all decide)⟩,
   by with_unfolding_all decide,
   (polyfit_time_calibration_fit [0, 1] [1, 3] encDark ecoScanW .avg_edge 1
      (2, 1) 0 (some 0)).2.2.2.2.2 (by with_unfolding_all decide)⟩

end Photodiag
